import Mathlib

/-!
Shallow embedding of the SWHID resolution and origin-attribution pipeline:

* `src/swh/web/api/views/identifiers.py` — the `/resolve` and `/known`
  endpoints and the per-type origin finding helpers;
* `src/swh/web/utils/content_origin.py` — the content → origin mapping store
  operations (`save_content_origin_mapping`, `get_origin_for_content`);
* `src/swh/web/models.py` — the `ContentOriginMapping` record.

External collaborators (the archive object store, the metadata indexer, the
identifier parsing helpers from `swh.web.utils.identifiers`, and the Django
ORM) are modelled as explicit environment functions or as pure state passing;
a raised Python exception becomes an `Except.error` value.  Hexadecimal hash
values and URLs are plain strings; `hash_to_hex`/`hash_to_bytes` round-trips
are modelled away by keeping every hash in hex-string form throughout.
-/

namespace SwhWeb

/-- Object types of a SWHID (`swh.model.swhids.ObjectType`). -/
inductive ObjectType
  | content
  | directory
  | revision
  | release
  | snapshot
deriving DecidableEq

/-- A parsed SWHID as produced by `resolve_swhid`: scheme fields, the hex
object id, and the qualifier mapping (which may hold an `origin` entry).
The Python attribute `namespace` is spelled `nspace` (Lean keyword). -/
structure ParsedSwhid where
  nspace : String
  scheme_version : Nat
  object_type : ObjectType
  object_id : String
  qualifiers : List (String × String)
deriving DecidableEq

/-- Result of `resolve_swhid`: the parsed identifier plus a browse URL. -/
structure ResolvedSwhid where
  swhid_parsed : ParsedSwhid
  browse_url : String
deriving DecidableEq

/-- The user-visible error taxonomy of the two endpoints: `BadInputExc`
(HTTP 400), `NotFoundExc` (HTTP 404) and `LargePayloadExc` (HTTP 413). -/
inductive ApiErr
  | badInput
  | notFound
  | largePayload
deriving DecidableEq

/-- Environment of `api_resolve_swhid`: the collaborators it calls.  Each
fallible Python call is a function returning `Except Unit _`; `.error ()`
models the call raising an exception.
`indexer_search` is `indexer_storage.origin_intrinsic_metadata_search_fulltext`
applied to one conjunction term with `limit=1` (it returns candidate origin
ids); `lookup_origin` and `lookup_object` are `swh.web.utils.archive`
functions; `lookup_snapshot` returns the snapshot's branch list. -/
structure ResolveEnv where
  resolve_swhid : String → Except Unit ResolvedSwhid
  lookup_object : ObjectType → String → Except Unit Unit
  indexer_search : String → Except Unit (List String)
  lookup_origin : String → Except Unit String
  lookup_snapshot : String → Except Unit (List String)
  build_absolute_uri : String → String

/-- `_find_origin_for_content`: full-text indexer search on
`content:<id>`, then `archive.lookup_origin` on the first candidate; every
exception (indexer unavailable, origin lookup failure) is caught and turned
into `None`. -/
def find_origin_for_content (env : ResolveEnv) (content_id : String) : Option String :=
  match env.indexer_search ("content:" ++ content_id) with
  | .error _ => none
  | .ok content_origins =>
    match content_origins.head? with
    | none => none
    | some origin_id =>
      match env.lookup_origin origin_id with
      | .error _ => none
      | .ok url => some url

/-- `_find_origin_for_directory`, same shape with a `directory:` term. -/
def find_origin_for_directory (env : ResolveEnv) (directory_id : String) : Option String :=
  match env.indexer_search ("directory:" ++ directory_id) with
  | .error _ => none
  | .ok dir_origins =>
    match dir_origins.head? with
    | none => none
    | some origin_id =>
      match env.lookup_origin origin_id with
      | .error _ => none
      | .ok url => some url

/-- `_find_origin_for_revision`, same shape with a `revision:` term. -/
def find_origin_for_revision (env : ResolveEnv) (revision_id : String) : Option String :=
  match env.indexer_search ("revision:" ++ revision_id) with
  | .error _ => none
  | .ok rev_origins =>
    match rev_origins.head? with
    | none => none
    | some origin_id =>
      match env.lookup_origin origin_id with
      | .error _ => none
      | .ok url => some url

/-- `_find_origin_for_release`, same shape with a `release:` term. -/
def find_origin_for_release (env : ResolveEnv) (release_id : String) : Option String :=
  match env.indexer_search ("release:" ++ release_id) with
  | .error _ => none
  | .ok rel_origins =>
    match rel_origins.head? with
    | none => none
    | some origin_id =>
      match env.lookup_origin origin_id with
      | .error _ => none
      | .ok url => some url

/-- `_find_origin_for_snapshot`: calls `archive.lookup_snapshot` (exceptions
caught) and inspects the branches, but the branch-handling body is `pass` in
the source, so every path returns `None`. -/
def find_origin_for_snapshot (env : ResolveEnv) (snapshot_id : String) : Option String :=
  match env.lookup_snapshot snapshot_id with
  | .error _ => none
  | .ok _branches => none

/-- The `if object_type.name.lower() == ...` chain of `api_resolve_swhid`
dispatching to the per-type origin finding helper. -/
def find_origin_for_object (env : ResolveEnv) (t : ObjectType) (object_id : String) :
    Option String :=
  match t with
  | .content => find_origin_for_content env object_id
  | .directory => find_origin_for_directory env object_id
  | .revision => find_origin_for_revision env object_id
  | .release => find_origin_for_release env object_id
  | .snapshot => find_origin_for_snapshot env object_id

/-- The JSON body returned by `api_resolve_swhid`.  `origin_url : Option
String` models a JSON field that could in principle be null or absent; the
code always fills it with `some _`. -/
structure ResolveResponse where
  nspace : String
  scheme_version : Nat
  object_type : ObjectType
  object_id : String
  metadata : List (String × String)
  browse_url : String
  origin_url : Option String
deriving DecidableEq

/-- `api_resolve_swhid`: resolve the identifier (400 on failure), check the
object exists (404 on failure), then compute `origin_url` through the
per-type helpers — the whole dispatch sits in a `try/except Exception: pass`
and each helper already catches internally — and render the response with
`origin_url if origin_url is not None else ""`. -/
def api_resolve_swhid (env : ResolveEnv) (swhid : String) : Except ApiErr ResolveResponse :=
  match env.resolve_swhid swhid with
  | .error _ => .error .badInput
  | .ok swhid_resolved =>
    let swhid_parsed := swhid_resolved.swhid_parsed
    match env.lookup_object swhid_parsed.object_type swhid_parsed.object_id with
    | .error _ => .error .notFound
    | .ok _ =>
      let origin_url := find_origin_for_object env swhid_parsed.object_type swhid_parsed.object_id
      .ok {
        nspace := swhid_parsed.nspace
        scheme_version := swhid_parsed.scheme_version
        object_type := swhid_parsed.object_type
        object_id := swhid_parsed.object_id
        metadata := swhid_parsed.qualifiers
        browse_url := env.build_absolute_uri swhid_resolved.browse_url
        origin_url := some (origin_url.getD "") }

/-! ### The content → origin mapping store (`content_origin.py`, `models.py`) -/

/-- One `ContentOriginMapping` row: hex content hash, origin URL, creation
timestamp (`created_at` is `auto_now_add`, stamped once at insertion). -/
structure OriginRecord where
  content_sha1_git : String
  origin_url : String
  created_at : Nat
deriving DecidableEq

/-- The mapping table, rows listed in primary-key (insertion) order — the
order an unordered Django queryset iterates them in. -/
abbrev MappingStore := List OriginRecord

/-- Mapping store plus a clock supplying `auto_now_add` timestamps. -/
structure StoreSt where
  rows : MappingStore
  clock : Nat
deriving DecidableEq

/-- `save_content_origin_mapping`: Django
`get_or_create(content_sha1_git=h, origin_url=u, defaults=...)` — look the
pair up, insert a fresh row stamped with the current time only when no row
matches both fields. -/
def save_content_origin_mapping (st : StoreSt) (content_sha1_git origin_url : String) :
    StoreSt :=
  if st.rows.any (fun r =>
      r.content_sha1_git == content_sha1_git && r.origin_url == origin_url) then
    st
  else
    { rows := st.rows ++ [{ content_sha1_git := content_sha1_git,
                            origin_url := origin_url,
                            created_at := st.clock }],
      clock := st.clock + 1 }

/-- `get_origin_for_content`: `objects.filter(content_sha1_git=h).first()` —
no `order_by`, so `.first()` takes the head of the rows in default
(primary-key / insertion) order. -/
def get_origin_for_content (db : MappingStore) (content_sha1_git : String) : Option String :=
  ((db.filter (fun r => r.content_sha1_git == content_sha1_git)).head?).map
    (fun r => r.origin_url)

/-! ### The `/known` endpoint -/

/-- A core SWHID as produced by `parse_core_swhid`: object type and hex id. -/
structure CoreSwhid where
  object_type : ObjectType
  object_id : String
deriving DecidableEq

/-- Three-letter type tags of the SWHID grammar. -/
def object_type_tag : ObjectType → String
  | .content => "cnt"
  | .directory => "dir"
  | .revision => "rev"
  | .release => "rel"
  | .snapshot => "snp"

/-- Modelled from the spec: the canonical rendering of a core SWHID,
`swh:1:<tag>:<hash>` — the `str(swhid)` used to key the `/known` response
(glossary and section 8 example of the spec; `CoreSWHID.__str__` itself is
not under `src/`). -/
def swh_str (s : CoreSwhid) : String :=
  "swh:1:" ++ object_type_tag s.object_type ++ ":" ++ s.object_id

/-- Environment of `api_swhid_known`: `parse_core_swhid` (raises on invalid
input, modelled as `Except`), and the archive store's contents as a
presence predicate per type and hash. -/
structure KnownEnv where
  parse_core_swhid : String → Except Unit CoreSwhid
  present : ObjectType → String → Bool

/-- The `archive.lookup_missing_hashes` collaborator, consumed through the
contract of spec section 6: the bulk negative-existence check returns exactly
the input hashes absent from the store described by `present`. -/
def lookup_missing_hashes (present : ObjectType → String → Bool)
    (t : ObjectType) (hashes : List String) : List String :=
  hashes.filter (fun h => !(present t h))

/-- Modelled from the spec: `group_swhids` groups the parsed identifiers by
object type before querying (spec section 4.2; the helper lives in
`swh.web.utils.identifiers`, not under `src/`). -/
def group_swhids (swhids : List CoreSwhid) (t : ObjectType) : List String :=
  (swhids.filter (fun s => s.object_type == t)).map (fun s => s.object_id)

/-- The list comprehension `[parse_core_swhid(s) for s in request.data]`:
left to right, the first exception aborts the whole comprehension. -/
def parse_all (p : String → Except Unit CoreSwhid) : List String → Except Unit (List CoreSwhid)
  | [] => .ok []
  | s :: rest =>
    match p s with
    | .error e => .error e
    | .ok c =>
      match parse_all p rest with
      | .error e => .error e
      | .ok cs => .ok (c :: cs)

/-- The response dictionary of `/known`: insertion-ordered keys, one boolean
per key, exactly a Python `dict` built by comprehension plus updates. -/
abbrev KnownDict := List (String × Bool)

/-- Keys of the dictionary in insertion order. -/
def dictKeys (d : KnownDict) : List String := d.map Prod.fst

/-- `d[k] = v` on a Python dict: overwrite in place when the key exists,
append otherwise. -/
def dictInsert (d : KnownDict) (k : String) (v : Bool) : KnownDict :=
  if k ∈ dictKeys d then d.map (fun p => if p.1 = k then (p.1, v) else p)
  else d ++ [(k, v)]

/-- The final loop of `api_swhid_known`: mark `known: True` for every swhid
whose object id is not among the missing hashes of its type. -/
def known_loop (missing : ObjectType → List String) (swhids : List CoreSwhid)
    (d : KnownDict) : KnownDict :=
  swhids.foldl
    (fun d s =>
      if s.object_id ∈ missing s.object_type then d
      else dictInsert d (swh_str s) true)
    d

/-- `api_swhid_known`: cap check at 1000 first (`LargePayloadExc`), then
parse all identifiers (any failure aborts with `BadInputExc`), build the
all-`False` response dict keyed by `str(swhid)`, compute the missing hashes
per type group, and flip to `True` every identifier found present. -/
def api_swhid_known (env : KnownEnv) (data : List String) : Except ApiErr KnownDict :=
  if data.length > 1000 then .error .largePayload
  else
    match parse_all env.parse_core_swhid data with
    | .error _ => .error .badInput
    | .ok swhids =>
      let response := swhids.foldl (fun d s => dictInsert d (swh_str s) false) ([] : KnownDict)
      let missing := fun t => lookup_missing_hashes env.present t (group_swhids swhids t)
      .ok (known_loop missing swhids response)

/-- First-occurrence deduplication of a key sequence, relative to an initial
set of already-seen keys: the key order a Python dict ends up with. -/
def dedupFrom (seen : List String) : List String → List String
  | [] => []
  | k :: ks => if k ∈ seen then dedupFrom seen ks else k :: dedupFrom (seen ++ [k]) ks

/-! ### Dictionary and dedup lemmas -/

theorem dictKeys_replace (d : KnownDict) (k : String) (v : Bool) :
    dictKeys (d.map (fun p => if p.1 = k then (p.1, v) else p)) = dictKeys d := by
  induction d with
  | nil => rfl
  | cons p d ih =>
    simp only [dictKeys, List.map_cons] at ih ⊢
    by_cases hp : p.1 = k
    · simp [hp, ih]
    · simp [hp, ih]

theorem dictKeys_dictInsert (d : KnownDict) (k : String) (v : Bool) :
    dictKeys (dictInsert d k v) =
      if k ∈ dictKeys d then dictKeys d else dictKeys d ++ [k] := by
  by_cases h : k ∈ dictKeys d
  · rw [dictInsert, if_pos h, if_pos h, dictKeys_replace]
  · rw [dictInsert, if_neg h, if_neg h]
    simp [dictKeys]

theorem dictKeys_foldl_insert (v : Bool) (ks : List String) :
    ∀ d : KnownDict,
      dictKeys (ks.foldl (fun d k => dictInsert d k v) d) =
        dictKeys d ++ dedupFrom (dictKeys d) ks := by
  induction ks with
  | nil => intro d; simp [dedupFrom]
  | cons k ks ih =>
    intro d
    rw [List.foldl_cons]
    by_cases h : k ∈ dictKeys d
    · have hk : dictKeys (dictInsert d k v) = dictKeys d := by
        rw [dictKeys_dictInsert]; simp [h]
      rw [ih (dictInsert d k v), hk]
      simp [dedupFrom, h]
    · have hk : dictKeys (dictInsert d k v) = dictKeys d ++ [k] := by
        rw [dictKeys_dictInsert]; simp [h]
      rw [ih (dictInsert d k v), hk]
      simp [dedupFrom, h]

theorem mem_of_mem_dedupFrom {k : String} :
    ∀ {ks seen : List String}, k ∈ dedupFrom seen ks → k ∉ seen := by
  intro ks
  induction ks with
  | nil => intro seen h; simp [dedupFrom] at h
  | cons a ks ih =>
    intro seen h
    simp only [dedupFrom] at h
    by_cases ha : a ∈ seen
    · rw [if_pos ha] at h; exact ih h
    · rw [if_neg ha] at h
      rcases List.mem_cons.mp h with h1 | h1
      · subst h1; exact ha
      · intro hk
        exact (ih h1) (List.mem_append_left _ hk)

theorem nodup_dedupFrom : ∀ (ks seen : List String), (dedupFrom seen ks).Nodup := by
  intro ks
  induction ks with
  | nil => intro seen; simp [dedupFrom]
  | cons a ks ih =>
    intro seen
    simp only [dedupFrom]
    by_cases ha : a ∈ seen
    · rw [if_pos ha]; exact ih seen
    · rw [if_neg ha]
      refine List.nodup_cons.mpr ⟨?_, ih (seen ++ [a])⟩
      intro hmem
      exact (mem_of_mem_dedupFrom hmem)
        (List.mem_append_right _ (List.mem_singleton.mpr rfl))

theorem length_dedupFrom : ∀ (ks seen : List String),
    (dedupFrom seen ks).length ≤ ks.length := by
  intro ks
  induction ks with
  | nil => intro seen; simp [dedupFrom]
  | cons a ks ih =>
    intro seen
    simp only [dedupFrom]
    by_cases ha : a ∈ seen
    · rw [if_pos ha]
      exact Nat.le_succ_of_le (ih seen)
    · rw [if_neg ha]
      simp only [List.length_cons]
      exact Nat.succ_le_succ (ih (seen ++ [a]))

theorem mem_dedupFrom_of_mem {k : String} :
    ∀ (ks seen : List String), k ∈ ks → k ∈ seen ∨ k ∈ dedupFrom seen ks := by
  intro ks
  induction ks with
  | nil => intro seen h; simp at h
  | cons a ks ih =>
    intro seen h
    simp only [dedupFrom]
    rcases List.mem_cons.mp h with h1 | h1
    · subst h1
      by_cases ha : k ∈ seen
      · exact Or.inl ha
      · rw [if_neg ha]
        exact Or.inr (List.mem_cons_self _ _)
    · by_cases ha : a ∈ seen
      · rw [if_pos ha]
        exact ih seen h1
      · rw [if_neg ha]
        rcases ih (seen ++ [a]) h1 with h2 | h2
        · rcases List.mem_append.mp h2 with h3 | h3
          · exact Or.inl h3
          · have hka : k = a := List.mem_singleton.mp h3
            subst hka
            exact Or.inr (List.mem_cons_self _ _)
        · exact Or.inr (List.mem_cons_of_mem _ h2)

/-- Unfolding equation of `known_loop` over a cons cell. -/
theorem known_loop_cons (missing : ObjectType → List String) (s : CoreSwhid)
    (swhids : List CoreSwhid) (d : KnownDict) :
    known_loop missing (s :: swhids) d =
      known_loop missing swhids
        (if s.object_id ∈ missing s.object_type then d
         else dictInsert d (swh_str s) true) := rfl

theorem dictKeys_known_loop (missing : ObjectType → List String) :
    ∀ (swhids : List CoreSwhid) (d : KnownDict),
      (∀ s ∈ swhids, swh_str s ∈ dictKeys d) →
      dictKeys (known_loop missing swhids d) = dictKeys d := by
  intro swhids
  induction swhids with
  | nil => intro d _; rfl
  | cons s swhids ih =>
    intro d hmem
    rw [known_loop_cons]
    by_cases hm : s.object_id ∈ missing s.object_type
    · rw [if_pos hm]
      exact ih d (fun s' hs' => hmem s' (List.mem_cons_of_mem _ hs'))
    · rw [if_neg hm]
      have hkey : swh_str s ∈ dictKeys d := hmem s (List.mem_cons_self _ _)
      have hk : dictKeys (dictInsert d (swh_str s) true) = dictKeys d := by
        rw [dictKeys_dictInsert]; simp [hkey]
      have hrest : ∀ s' ∈ swhids, swh_str s' ∈ dictKeys (dictInsert d (swh_str s) true) := by
        intro s' hs'; rw [hk]; exact hmem s' (List.mem_cons_of_mem _ hs')
      rw [ih (dictInsert d (swh_str s) true) hrest, hk]

theorem parse_all_length (p : String → Except Unit CoreSwhid) :
    ∀ (data : List String) (swhids : List CoreSwhid),
      parse_all p data = .ok swhids → swhids.length = data.length := by
  intro data
  induction data with
  | nil =>
    intro swhids h
    simp [parse_all] at h
    subst h; rfl
  | cons s data ih =>
    intro swhids h
    cases hp : p s with
    | error e => simp [parse_all, hp] at h
    | ok c =>
      cases hr : parse_all p data with
      | error e => simp [parse_all, hp, hr] at h
      | ok cs =>
        simp only [parse_all, hp, hr] at h
        cases h
        simp [ih cs hr]

theorem parse_all_error (p : String → Except Unit CoreSwhid) :
    ∀ (data : List String) (s : String), s ∈ data → p s = .error () →
      parse_all p data = .error () := by
  intro data
  induction data with
  | nil => intro s hs; intro _; simp at hs
  | cons a data ih =>
    intro s hs hbad
    rcases List.mem_cons.mp hs with h1 | h1
    · subst h1
      simp [parse_all, hbad]
    · cases hp : p a with
      | error e => cases e; simp [parse_all, hp]
      | ok c => simp [parse_all, hp, ih s h1 hbad]

theorem map_replace_eq_self (d : KnownDict) (k : String) (v : Bool)
    (h : ∀ p ∈ d, p.1 ≠ k) :
    d.map (fun p => if p.1 = k then (p.1, v) else p) = d := by
  induction d with
  | nil => rfl
  | cons p d ih =>
    have hp : p.1 ≠ k := h p (List.mem_cons_self _ _)
    simp only [List.map_cons, if_neg hp]
    rw [ih (fun q hq => h q (List.mem_cons_of_mem _ hq))]

theorem dictInsert_cons (p : String × Bool) (d : KnownDict) (k : String) (v : Bool)
    (hne : k ≠ p.1) :
    dictInsert (p :: d) k v = p :: dictInsert d k v := by
  by_cases h : k ∈ dictKeys d
  · have h' : k ∈ dictKeys (p :: d) := by
      simp only [dictKeys, List.map_cons]
      exact List.mem_cons_of_mem _ h
    rw [dictInsert, if_pos h', dictInsert, if_pos h]
    simp only [List.map_cons, if_neg (Ne.symm hne)]
  · have h' : k ∉ dictKeys (p :: d) := by
      simp only [dictKeys, List.map_cons, List.mem_cons]
      rintro (h1 | h1)
      · exact hne h1
      · exact h h1
    rw [dictInsert, if_neg h', dictInsert, if_neg h]
    rfl

theorem dictInsert_head (k : String) (b v : Bool) (d : KnownDict)
    (h : ∀ p ∈ d, p.1 ≠ k) :
    dictInsert ((k, b) :: d) k v = (k, v) :: d := by
  have hmem : k ∈ dictKeys ((k, b) :: d) := by simp [dictKeys]
  rw [dictInsert, if_pos hmem, List.map_cons]
  dsimp only
  rw [if_pos rfl]
  exact congrArg (List.cons (k, v)) (map_replace_eq_self d k v h)

theorem foldl_insert_fresh (v : Bool) :
    ∀ (ks : List String) (d : KnownDict), ks.Nodup → (∀ k ∈ ks, k ∉ dictKeys d) →
      ks.foldl (fun d k => dictInsert d k v) d = d ++ ks.map (fun k => (k, v)) := by
  intro ks
  induction ks with
  | nil => intro d _ _; simp
  | cons k ks ih =>
    intro d hnd hfresh
    rw [List.foldl_cons]
    have hk : k ∉ dictKeys d := hfresh k (List.mem_cons_self _ _)
    have hins : dictInsert d k v = d ++ [(k, v)] := by rw [dictInsert, if_neg hk]
    have hfresh' : ∀ k' ∈ ks, k' ∉ dictKeys (d ++ [(k, v)]) := by
      intro k' hk' hmem
      have h1 : k' ∉ dictKeys d := hfresh k' (List.mem_cons_of_mem _ hk')
      have h2 : k' ≠ k := fun heq => (List.nodup_cons.mp hnd).1 (heq ▸ hk')
      have hkeys : dictKeys (d ++ [(k, v)]) = dictKeys d ++ [k] := by
        simp [dictKeys]
      rw [hkeys] at hmem
      rcases List.mem_append.mp hmem with h3 | h3
      · exact h1 h3
      · exact h2 (List.mem_singleton.mp h3)
    rw [hins, ih (d ++ [(k, v)]) (List.nodup_cons.mp hnd).2 hfresh']
    simp

theorem known_loop_cons_head (missing : ObjectType → List String)
    (p : String × Bool) :
    ∀ (swhids : List CoreSwhid) (d : KnownDict),
      (∀ s ∈ swhids, swh_str s ≠ p.1) →
      known_loop missing swhids (p :: d) = p :: known_loop missing swhids d := by
  intro swhids
  induction swhids with
  | nil => intro d _; rfl
  | cons s swhids ih =>
    intro d hne
    rw [known_loop_cons, known_loop_cons]
    by_cases hm : s.object_id ∈ missing s.object_type
    · rw [if_pos hm, if_pos hm]
      exact ih d (fun s' hs' => hne s' (List.mem_cons_of_mem _ hs'))
    · rw [if_neg hm, if_neg hm,
        dictInsert_cons p d (swh_str s) true (hne s (List.mem_cons_self _ _))]
      exact ih _ (fun s' hs' => hne s' (List.mem_cons_of_mem _ hs'))

theorem known_loop_map (missing : ObjectType → List String) :
    ∀ swhids : List CoreSwhid, (swhids.map swh_str).Nodup →
      known_loop missing swhids (swhids.map (fun s => (swh_str s, false))) =
        swhids.map (fun s =>
          (swh_str s, if s.object_id ∈ missing s.object_type then false else true)) := by
  intro swhids
  induction swhids with
  | nil => intro _; rfl
  | cons s swhids ih =>
    intro hnd
    simp only [List.map_cons] at hnd ⊢
    have hnotin : swh_str s ∉ swhids.map swh_str := (List.nodup_cons.mp hnd).1
    have hnd' : (swhids.map swh_str).Nodup := (List.nodup_cons.mp hnd).2
    have hne : ∀ s' ∈ swhids, swh_str s' ≠ swh_str s := by
      intro s' hs' heq
      exact hnotin (heq ▸ List.mem_map_of_mem swh_str hs')
    have hpairs : ∀ p ∈ swhids.map (fun s' => (swh_str s', false)), p.1 ≠ swh_str s := by
      intro p hp
      rcases List.mem_map.mp hp with ⟨s', hs', rfl⟩
      exact hne s' hs'
    rw [known_loop_cons]
    by_cases hm : s.object_id ∈ missing s.object_type
    · rw [if_pos hm, if_pos hm,
        known_loop_cons_head missing (swh_str s, false) swhids _ hne,
        ih hnd']
    · rw [if_neg hm, if_neg hm,
        dictInsert_head (swh_str s) false true _ hpairs,
        known_loop_cons_head missing (swh_str s, true) swhids _ hne,
        ih hnd']

theorem length_filter_not {α : Type} (p : α → Bool) :
    ∀ l : List α, (l.filter p).length + (l.filter (fun a => !(p a))).length = l.length := by
  intro l
  induction l with
  | nil => rfl
  | cons a l ih =>
    cases hpa : p a
    · simp [List.filter_cons, hpa]
      omega
    · simp [List.filter_cons, hpa]
      omega

theorem filter_eq_nil_of_forall {α : Type} (p : α → Bool) :
    ∀ l : List α, (∀ a ∈ l, p a = false) → l.filter p = [] := by
  intro l
  induction l with
  | nil => intro _; rfl
  | cons a l ih =>
    intro h
    rw [List.filter_cons, h a (List.mem_cons_self _ _)]
    simpa using ih (fun a' ha' => h a' (List.mem_cons_of_mem _ ha'))

/-! ### Mapping store lemmas -/

/-- Rows carrying one exact (hash, url) pair, in store order. -/
def pair_rows (rows : MappingStore) (h u : String) : MappingStore :=
  rows.filter (fun r => r.content_sha1_git == h && r.origin_url == u)

/-- Rows of one content hash, in store order. -/
def rows_for_hash (db : MappingStore) (h : String) : MappingStore :=
  db.filter (fun r => r.content_sha1_git == h)

/-- The row-level uniqueness constraint `unique_content_origin_mapping` of
`ContentOriginMapping.Meta`: no two rows share the
(content_sha1_git, origin_url) pair. -/
def uniquePairs (rows : MappingStore) : Prop :=
  rows.Pairwise (fun a b =>
    ¬(a.content_sha1_git = b.content_sha1_git ∧ a.origin_url = b.origin_url))

theorem pair_rows_length_le_one (h u : String) :
    ∀ rows : MappingStore, uniquePairs rows → (pair_rows rows h u).length ≤ 1 := by
  intro rows
  induction rows with
  | nil => intro _; simp [pair_rows]
  | cons r rows ih =>
    intro hu
    rcases List.pairwise_cons.mp hu with ⟨hr, hrest⟩
    rw [pair_rows, List.filter_cons]
    by_cases hp : (r.content_sha1_git == h && r.origin_url == u) = true
    · have hmatch : r.content_sha1_git = h ∧ r.origin_url = u := by
        simpa using hp
      have hnone : ∀ r' ∈ rows, (r'.content_sha1_git == h && r'.origin_url == u) = false := by
        intro r' hr'
        by_contra hfalse
        have hp' : (r'.content_sha1_git == h && r'.origin_url == u) = true := by
          revert hfalse; cases (r'.content_sha1_git == h && r'.origin_url == u) <;> simp
        have hmatch' : r'.content_sha1_git = h ∧ r'.origin_url = u := by simpa using hp'
        exact hr r' hr' ⟨hmatch.1.trans hmatch'.1.symm, hmatch.2.trans hmatch'.2.symm⟩
      rw [hp]
      have hnil : rows.filter (fun r => r.content_sha1_git == h && r.origin_url == u) = [] :=
        filter_eq_nil_of_forall _ rows hnone
      simp [hnil]
    · have hp' : (r.content_sha1_git == h && r.origin_url == u) = false := by
        revert hp; cases (r.content_sha1_git == h && r.origin_url == u) <;> simp
      rw [hp']
      simpa [pair_rows] using ih hrest

/-- C5: upsert idempotence and uniqueness — calling
`save_content_origin_mapping` twice with the same (hash, url) pair leaves the
store exactly as after the first call (so in particular the row's
`created_at` is unchanged by the second call), after the write the store
holds exactly one row for the pair, and the (objectHash, originUrl)
uniqueness invariant is preserved. -/
theorem upsert_idempotent (st : StoreSt) (h u : String) (hinv : uniquePairs st.rows) :
    save_content_origin_mapping (save_content_origin_mapping st h u) h u =
        save_content_origin_mapping st h u
      ∧ (pair_rows (save_content_origin_mapping st h u).rows h u).length = 1
      ∧ uniquePairs (save_content_origin_mapping st h u).rows := by
  by_cases hc :
      (st.rows.any (fun r => r.content_sha1_git == h && r.origin_url == u)) = true
  · have hsave : save_content_origin_mapping st h u = st := by
      rw [save_content_origin_mapping, if_pos hc]
    refine ⟨?_, ?_, ?_⟩
    · rw [hsave, hsave]
    · rw [hsave]
      rcases List.any_eq_true.mp hc with ⟨r, hr, hpr⟩
      have hmem : r ∈ pair_rows st.rows h u := List.mem_filter.mpr ⟨hr, hpr⟩
      have h1 : 1 ≤ (pair_rows st.rows h u).length :=
        List.length_pos.mpr (List.ne_nil_of_mem hmem)
      exact Nat.le_antisymm (pair_rows_length_le_one h u st.rows hinv) h1
    · rw [hsave]; exact hinv
  · have hall : ∀ r ∈ st.rows,
        (r.content_sha1_git == h && r.origin_url == u) = false := by
      intro r hr
      cases hpr : (r.content_sha1_git == h && r.origin_url == u) with
      | false => rfl
      | true => exact absurd (List.any_eq_true.mpr ⟨r, hr, hpr⟩) hc
    have hsave : save_content_origin_mapping st h u =
        { rows := st.rows ++ [{ content_sha1_git := h, origin_url := u,
                                created_at := st.clock }],
          clock := st.clock + 1 } := by
      rw [save_content_origin_mapping, if_neg hc]
    refine ⟨?_, ?_, ?_⟩
    · rw [hsave, save_content_origin_mapping]
      have hany : ((st.rows ++ [(⟨h, u, st.clock⟩ : OriginRecord)]).any
            (fun r => r.content_sha1_git == h && r.origin_url == u)) = true := by
        rw [List.any_append]
        simp
      rw [if_pos hany]
    · rw [hsave, pair_rows, List.filter_append]
      have hnil : st.rows.filter
          (fun r => r.content_sha1_git == h && r.origin_url == u) = [] :=
        filter_eq_nil_of_forall _ st.rows hall
      rw [hnil]
      simp
    · rw [hsave, uniquePairs, List.pairwise_append]
      refine ⟨hinv, List.pairwise_singleton _ _, ?_⟩
      intro a ha b hb
      have hb' : b = { content_sha1_git := h, origin_url := u, created_at := st.clock } :=
        List.mem_singleton.mp hb
      subst hb'
      intro hmatch
      have hx : (a.content_sha1_git == h && a.origin_url == u) = true := by
        simp [hmatch.1, hmatch.2]
      rw [hall a ha] at hx
      simp at hx

def stEmpty : StoreSt := { rows := [], clock := 0 }

/-- Witness for C5: the theorem applied to the empty store. -/
theorem upsert_idempotent_witness :
    save_content_origin_mapping
        (save_content_origin_mapping stEmpty "aa11" "https://origin.example/a")
        "aa11" "https://origin.example/a" =
      save_content_origin_mapping stEmpty "aa11" "https://origin.example/a"
    ∧ (pair_rows (save_content_origin_mapping stEmpty "aa11"
        "https://origin.example/a").rows "aa11" "https://origin.example/a").length = 1
    ∧ uniquePairs (save_content_origin_mapping stEmpty "aa11"
        "https://origin.example/a").rows :=
  upsert_idempotent stEmpty "aa11" "https://origin.example/a" List.Pairwise.nil

def rowOld : OriginRecord :=
  { content_sha1_git := "aa11", origin_url := "https://origin.example/old",
    created_at := 0 }

def rowNew : OriginRecord :=
  { content_sha1_git := "aa11", origin_url := "https://origin.example/new",
    created_at := 1 }

def dbW : MappingStore := [rowOld, rowNew]

/-- C6 counterexample: for hash "aa11" the store holds exactly the two rows
`rowOld` (created_at 0) and `rowNew` (created_at 1) — `rowNew` being the
most recently created — yet `get_origin_for_content` returns `rowOld`'s
URL, not `rowNew`'s, refuting the claimed createdAt-descending ordering. -/
theorem get_origin_not_most_recent :
    rows_for_hash dbW "aa11" = [rowOld, rowNew]
    ∧ rowOld.created_at = 0
    ∧ rowNew.created_at = 1
    ∧ get_origin_for_content dbW "aa11" = some rowOld.origin_url
    ∧ (rowOld.origin_url = rowNew.origin_url) = False :=
  ⟨rfl, rfl, rfl, rfl, eq_false (by decide)⟩

/-- C6 (amended): when row timestamps are nondecreasing along insertion
order — which is how `save_content_origin_mapping` stamps them — the
single-hash lookup returns the origin URL of the oldest matching row, the
one minimal in `created_at`: the queryset carries no order_by, so `.first()`
takes the head in primary-key order, not createdAt descending. -/
theorem get_origin_returns_oldest (db : MappingStore) (h : String) (r0 : OriginRecord)
    (hsorted : db.Pairwise (fun a b => a.created_at ≤ b.created_at))
    (hm : r0 ∈ rows_for_hash db h) :
    ∃ r, r ∈ rows_for_hash db h
      ∧ get_origin_for_content db h = some r.origin_url
      ∧ ∀ r' ∈ rows_for_hash db h, r.created_at ≤ r'.created_at := by
  have hsub : List.Sublist (rows_for_hash db h) db := List.filter_sublist db
  have hpw : (rows_for_hash db h).Pairwise (fun a b => a.created_at ≤ b.created_at) :=
    List.Pairwise.sublist hsub hsorted
  cases hrows : rows_for_hash db h with
  | nil => rw [hrows] at hm; cases hm
  | cons a t =>
    rw [hrows] at hpw
    refine ⟨a, ?_, ?_, ?_⟩
    · exact List.mem_cons_self _ _
    · rw [get_origin_for_content,
        show db.filter (fun r => r.content_sha1_git == h) = rows_for_hash db h from rfl,
        hrows]
      rfl
    · intro r' hr'
      rcases List.mem_cons.mp hr' with h1 | h1
      · subst h1; exact Nat.le_refl _
      · exact (List.pairwise_cons.mp hpw).1 r' h1

/-- Witness for the amended C6: applied to the two-row store, the lookup
returns the oldest row's URL. -/
theorem get_origin_returns_oldest_witness :
    get_origin_for_content dbW "aa11" = some rowOld.origin_url := by
  rcases get_origin_returns_oldest dbW "aa11" rowOld (by decide) (by decide)
    with ⟨r, hmem, heq, hmin⟩
  have hrows : rows_for_hash dbW "aa11" = [rowOld, rowNew] := rfl
  rw [hrows] at hmem
  rcases List.mem_cons.mp hmem with h | h
  · rw [heq, h]
  · have h2 : r = rowNew := List.mem_singleton.mp h
    have h3 := hmin rowOld (by rw [hrows]; exact List.mem_cons_self _ _)
    rw [h2] at h3
    exact absurd h3 (by decide)

/-! ### Resolve endpoint lemmas -/

theorem find_origin_for_snapshot_eq_none (env : ResolveEnv) (snapshot_id : String) :
    find_origin_for_snapshot env snapshot_id = none := by
  unfold find_origin_for_snapshot
  cases env.lookup_snapshot snapshot_id <;> rfl

theorem api_resolve_ok_form (env : ResolveEnv) (swhid : String) (res : ResolvedSwhid)
    (v : Unit)
    (hres : env.resolve_swhid swhid = .ok res)
    (hex : env.lookup_object res.swhid_parsed.object_type
      res.swhid_parsed.object_id = .ok v) :
    api_resolve_swhid env swhid = .ok {
      nspace := res.swhid_parsed.nspace
      scheme_version := res.swhid_parsed.scheme_version
      object_type := res.swhid_parsed.object_type
      object_id := res.swhid_parsed.object_id
      metadata := res.swhid_parsed.qualifiers
      browse_url := env.build_absolute_uri res.browse_url
      origin_url := some ((find_origin_for_object env res.swhid_parsed.object_type
        res.swhid_parsed.object_id).getD "") } := by
  unfold api_resolve_swhid
  simp only [hres]
  simp only [hex]

theorem api_resolve_notFound (env : ResolveEnv) (swhid : String) (res : ResolvedSwhid)
    (e : Unit)
    (hres : env.resolve_swhid swhid = .ok res)
    (hex : env.lookup_object res.swhid_parsed.object_type
      res.swhid_parsed.object_id = .error e) :
    api_resolve_swhid env swhid = .error .notFound := by
  unfold api_resolve_swhid
  simp only [hres]
  simp only [hex]

theorem api_resolve_origin_url_eq (env : ResolveEnv) (swhid : String)
    (res : ResolvedSwhid) (r : ResolveResponse)
    (hres : env.resolve_swhid swhid = .ok res)
    (hr : api_resolve_swhid env swhid = .ok r) :
    r.origin_url = some ((find_origin_for_object env res.swhid_parsed.object_type
      res.swhid_parsed.object_id).getD "") := by
  cases hex : env.lookup_object res.swhid_parsed.object_type res.swhid_parsed.object_id with
  | error e =>
    rw [api_resolve_notFound env swhid res e hres hex] at hr
    exact Except.noConfusion hr
  | ok v =>
    rw [api_resolve_ok_form env swhid res v hres hex] at hr
    injection hr with h
    rw [← h]

/-! ### Concrete fixtures shared by counterexamples and witnesses -/

def wParsed : ParsedSwhid :=
  { nspace := "swh", scheme_version := 1, object_type := .content,
    object_id := "aa11", qualifiers := [("origin", "https://origin.example/a")] }

def wRes : ResolvedSwhid :=
  { swhid_parsed := wParsed, browse_url := "/browse/content/aa11/" }

def wEnv : ResolveEnv :=
  { resolve_swhid := fun _ => .ok wRes
    lookup_object := fun _ _ => .ok ()
    indexer_search := fun _ => .ok []
    lookup_origin := fun _ => .error ()
    lookup_snapshot := fun _ => .error ()
    build_absolute_uri := fun s => s }

def wResp : ResolveResponse :=
  { nspace := "swh", scheme_version := 1, object_type := .content,
    object_id := "aa11",
    metadata := [("origin", "https://origin.example/a")],
    browse_url := "/browse/content/aa11/",
    origin_url := some "" }

def dbB : MappingStore :=
  [{ content_sha1_git := "aa11", origin_url := "https://origin.example/b",
     created_at := 0 }]

/-! ### Claims about the resolve endpoint -/

/-- C1 counterexample: the identifier carries origin qualifier A
(`https://origin.example/a`), the mapping store holds origin B
(`https://origin.example/b`) for the same content hash, yet resolution
returns `origin_url = ""` — not A: `api_resolve_swhid` derives `origin_url`
only from the indexer stage and consults neither the qualifier nor the
mapping store. -/
theorem resolve_qualifier_precedence_counterexample :
    ("origin", "https://origin.example/a") ∈ wParsed.qualifiers
      ∧ get_origin_for_content dbB "aa11" = some "https://origin.example/b"
      ∧ api_resolve_swhid wEnv
          "swh:1:cnt:aa11;origin=https%3A%2F%2Forigin.example%2Fa" = .ok wResp
      ∧ wResp.origin_url = some ""
      ∧ (("" : String) = "https://origin.example/a") = False :=
  ⟨by decide, rfl, rfl, rfl, by simp⟩

/-- C1 (amended): when an identifier carries an origin qualifier A and the
mapping store holds a row asserting origin B for the same content hash,
resolution returns neither — `origin_url` is produced solely by the
metadata-index stage, hence the empty string whenever that stage yields
nothing; the qualifier does not take precedence and the mapping store is
never consulted by `api_resolve_swhid`. -/
theorem resolve_qualifier_ignored (env : ResolveEnv) (swhid : String)
    (res : ResolvedSwhid) (r : ResolveResponse) (db : MappingStore) (A B : String)
    (hres : env.resolve_swhid swhid = .ok res)
    (htype : res.swhid_parsed.object_type = .content)
    (hqual : ("origin", A) ∈ res.swhid_parsed.qualifiers)
    (hdb : get_origin_for_content db res.swhid_parsed.object_id = some B)
    (hidx : find_origin_for_content env res.swhid_parsed.object_id = none)
    (hr : api_resolve_swhid env swhid = .ok r) :
    r.origin_url = some "" := by
  have h1 := api_resolve_origin_url_eq env swhid res r hres hr
  rw [htype] at h1
  rw [h1, show find_origin_for_object env .content res.swhid_parsed.object_id =
      find_origin_for_content env res.swhid_parsed.object_id from rfl, hidx]
  rfl

/-- Witness for the amended C1, at the fixture environment and store. -/
theorem resolve_qualifier_ignored_witness : wResp.origin_url = some "" :=
  resolve_qualifier_ignored wEnv
    "swh:1:cnt:aa11;origin=https%3A%2F%2Forigin.example%2Fa" wRes wResp dbB
    "https://origin.example/a" "https://origin.example/b"
    rfl rfl (by decide) rfl rfl rfl

/-- C2: on a valid identifier naming an existing object, the resolve
response carries `origin_url` as an actual string — `some s` in the JSON
model, never `none` (null/absent) — and the string is empty exactly when
the attribution dispatch produced no URL. -/
theorem resolve_origin_url_always_string (env : ResolveEnv) (swhid : String)
    (res : ResolvedSwhid) (r : ResolveResponse)
    (hres : env.resolve_swhid swhid = .ok res)
    (hr : api_resolve_swhid env swhid = .ok r) :
    ∃ s : String, r.origin_url = some s
      ∧ (find_origin_for_object env res.swhid_parsed.object_type
          res.swhid_parsed.object_id = none → s = "") := by
  refine ⟨(find_origin_for_object env res.swhid_parsed.object_type
      res.swhid_parsed.object_id).getD "",
    api_resolve_origin_url_eq env swhid res r hres hr, ?_⟩
  intro hnone
  rw [hnone]
  rfl

/-- Witness for C2 at the fixture environment: the response field is a
string — the empty one, since the attribution dispatch found nothing. -/
theorem resolve_origin_url_always_string_witness :
    wResp.origin_url = some ""
      ∧ find_origin_for_object wEnv ObjectType.content "aa11" = none := by
  rcases resolve_origin_url_always_string wEnv "swh:1:cnt:aa11" wRes wResp rfl rfl
    with ⟨s, hs, himp⟩
  have h0 : find_origin_for_object wEnv ObjectType.content "aa11" = none := rfl
  exact ⟨by rw [hs, himp h0], h0⟩

/-- C4: attribution is best-effort — whenever the identifier resolves and
the object exists, `api_resolve_swhid` succeeds for every environment,
including environments whose indexer search, origin canonicalization and
snapshot lookup raise on every call: stage failures are caught and
downgraded to an absent stage result, never failing the resolution. -/
theorem resolve_attribution_best_effort (env : ResolveEnv) (swhid : String)
    (res : ResolvedSwhid) (v : Unit)
    (hres : env.resolve_swhid swhid = .ok res)
    (hex : env.lookup_object res.swhid_parsed.object_type
      res.swhid_parsed.object_id = .ok v) :
    ∃ r, api_resolve_swhid env swhid = .ok r :=
  ⟨_, api_resolve_ok_form env swhid res v hres hex⟩

def failEnv : ResolveEnv :=
  { resolve_swhid := fun _ => .ok wRes
    lookup_object := fun _ _ => .ok ()
    indexer_search := fun _ => .error ()
    lookup_origin := fun _ => .error ()
    lookup_snapshot := fun _ => .error ()
    build_absolute_uri := fun s => s }

def except_is_ok {ε α : Type} : Except ε α → Bool
  | .ok _ => true
  | .error _ => false

/-- Witness for C4: every attribution collaborator raises, resolution still
returns a success. -/
theorem resolve_attribution_best_effort_witness :
    except_is_ok (api_resolve_swhid failEnv "swh:1:cnt:aa11") = true := by
  rcases resolve_attribution_best_effort failEnv "swh:1:cnt:aa11" wRes () rfl rfl
    with ⟨r, hr⟩
  rw [hr]
  rfl

def envIndexDown : ResolveEnv :=
  { resolve_swhid := fun _ => .ok wRes
    lookup_object := fun _ _ => .ok ()
    indexer_search := fun _ => .error ()
    lookup_origin := fun s => .ok s
    lookup_snapshot := fun _ => .ok []
    build_absolute_uri := fun s => s }

def envNoMatch : ResolveEnv :=
  { resolve_swhid := fun _ => .ok wRes
    lookup_object := fun _ _ => .ok ()
    indexer_search := fun _ => .ok []
    lookup_origin := fun s => .ok s
    lookup_snapshot := fun _ => .ok []
    build_absolute_uri := fun s => s }

/-- C7 counterexample: two environments identical except for the indexer —
one raising on every search (index down), one returning an empty candidate
list (no match) — give the index-lookup stage the very same output `none`:
the stage's return type carries no distinct IndexUnavailable outcome, so
the attribution engine cannot distinguish the two conditions (shown for the
content and the revision variants alike). -/
theorem index_down_indistinguishable_counterexample :
    envIndexDown.indexer_search "content:aa11" = .error ()
      ∧ envNoMatch.indexer_search "content:aa11" = .ok []
      ∧ find_origin_for_content envIndexDown "aa11" =
          find_origin_for_content envNoMatch "aa11"
      ∧ find_origin_for_content envIndexDown "aa11" = none
      ∧ find_origin_for_revision envIndexDown "aa11" =
          find_origin_for_revision envNoMatch "aa11" :=
  ⟨rfl, rfl, rfl, rfl, rfl⟩

/-- C7 (amended): the index-lookup stage swallows an unavailable index
inside itself — an indexer exception and an empty match list both yield
`none` to the attribution engine, so no distinct IndexUnavailable condition
is propagated upward; "no match" and "index down" are the same outcome at
that layer. -/
theorem index_failures_swallowed (env : ResolveEnv) (content_id : String) :
    (∀ e : Unit, env.indexer_search ("content:" ++ content_id) = .error e →
        find_origin_for_content env content_id = none)
      ∧ (env.indexer_search ("content:" ++ content_id) = .ok [] →
        find_origin_for_content env content_id = none) := by
  constructor
  · intro e he
    unfold find_origin_for_content
    rw [he]
  · intro he
    unfold find_origin_for_content
    rw [he]
    rfl

/-- Witness for the amended C7, at the two fixture environments. -/
theorem index_failures_swallowed_witness :
    find_origin_for_content envIndexDown "aa11" = none
      ∧ find_origin_for_content envNoMatch "aa11" = none :=
  ⟨(index_failures_swallowed envIndexDown "aa11").1 () rfl,
   (index_failures_swallowed envNoMatch "aa11").2 rfl⟩

def snapParsed : ParsedSwhid :=
  { nspace := "swh", scheme_version := 1, object_type := .snapshot,
    object_id := "bb22", qualifiers := [] }

def snapRes : ResolvedSwhid :=
  { swhid_parsed := snapParsed, browse_url := "/browse/snapshot/bb22/" }

def snapEnv : ResolveEnv :=
  { resolve_swhid := fun _ => .ok snapRes
    lookup_object := fun _ _ => .ok ()
    indexer_search := fun _ => .ok ["https://origin.example/rich"]
    lookup_origin := fun s => .ok s
    lookup_snapshot := fun _ => .ok ["refs/heads/main"]
    build_absolute_uri := fun s => s }

def snapResp : ResolveResponse :=
  { nspace := "swh", scheme_version := 1, object_type := .snapshot,
    object_id := "bb22", metadata := [],
    browse_url := "/browse/snapshot/bb22/",
    origin_url := some "" }

/-- C10: the snapshot origin finder returns no origin unconditionally — the
branch inspection in the source is a stub — so resolving any existing
snapshot identifier yields `origin_url = some ""` regardless of what the
indexer or any store holds. -/
theorem resolve_snapshot_origin_empty (env : ResolveEnv) (swhid : String)
    (res : ResolvedSwhid) (r : ResolveResponse)
    (hres : env.resolve_swhid swhid = .ok res)
    (htype : res.swhid_parsed.object_type = .snapshot)
    (hr : api_resolve_swhid env swhid = .ok r) :
    find_origin_for_snapshot env res.swhid_parsed.object_id = none
      ∧ r.origin_url = some "" := by
  refine ⟨find_origin_for_snapshot_eq_none env _, ?_⟩
  have h1 := api_resolve_origin_url_eq env swhid res r hres hr
  rw [htype] at h1
  rw [h1, show find_origin_for_object env .snapshot res.swhid_parsed.object_id =
      find_origin_for_snapshot env res.swhid_parsed.object_id from rfl,
    find_origin_for_snapshot_eq_none env _]
  rfl

/-- Witness for C10: the indexer has matches and the snapshot has branches,
yet the resolved snapshot's `origin_url` is the empty string. -/
theorem resolve_snapshot_origin_empty_witness :
    find_origin_for_snapshot snapEnv "bb22" = none
      ∧ snapResp.origin_url = some "" :=
  resolve_snapshot_origin_empty snapEnv "swh:1:snp:bb22" snapRes snapResp rfl rfl rfl

/-! ### Known endpoint lemmas -/

theorem api_swhid_known_ok (env : KnownEnv) (data : List String)
    (swhids : List CoreSwhid)
    (hlen : ¬ data.length > 1000)
    (hp : parse_all env.parse_core_swhid data = .ok swhids) :
    api_swhid_known env data = .ok (known_loop
      (fun t => lookup_missing_hashes env.present t (group_swhids swhids t)) swhids
      (swhids.foldl (fun d s => dictInsert d (swh_str s) false) [])) := by
  unfold api_swhid_known
  rw [if_neg hlen]
  simp only [hp]

theorem filter_congr_mem {α : Type} (p q : α → Bool) :
    ∀ l : List α, (∀ a ∈ l, p a = q a) → l.filter p = l.filter q := by
  intro l
  induction l with
  | nil => intro _; rfl
  | cons a l ih =>
    intro h
    rw [List.filter_cons, List.filter_cons, h a (List.mem_cons_self _ _),
      ih (fun a' ha' => h a' (List.mem_cons_of_mem _ ha'))]

theorem missing_iff_not_present (env : KnownEnv) (swhids : List CoreSwhid)
    (s : CoreSwhid) (hs : s ∈ swhids) :
    (if s.object_id ∈ lookup_missing_hashes env.present s.object_type
        (group_swhids swhids s.object_type) then false else true) =
      env.present s.object_type s.object_id := by
  have hgroup : s.object_id ∈ group_swhids swhids s.object_type := by
    rw [group_swhids]
    exact List.mem_map_of_mem _ (List.mem_filter.mpr ⟨hs, by simp⟩)
  cases hpres : env.present s.object_type s.object_id with
  | false =>
    have hmem : s.object_id ∈ lookup_missing_hashes env.present s.object_type
        (group_swhids swhids s.object_type) := by
      rw [lookup_missing_hashes]
      exact List.mem_filter.mpr ⟨hgroup, by rw [hpres]; rfl⟩
    rw [if_pos hmem]
  | true =>
    have hmem : s.object_id ∉ lookup_missing_hashes env.present s.object_type
        (group_swhids swhids s.object_type) := by
      rw [lookup_missing_hashes]
      intro hmem
      rcases List.mem_filter.mp hmem with ⟨_, hp⟩
      rw [hpres] at hp
      simp at hp
    rw [if_neg hmem]

theorem known_result_map (env : KnownEnv) (swhids : List CoreSwhid)
    (hnd : (swhids.map swh_str).Nodup) :
    known_loop (fun t => lookup_missing_hashes env.present t (group_swhids swhids t))
        swhids (swhids.foldl (fun d s => dictInsert d (swh_str s) false) []) =
      swhids.map (fun s =>
        (swh_str s, if s.object_id ∈ lookup_missing_hashes env.present s.object_type
            (group_swhids swhids s.object_type) then false else true)) := by
  have h0 : swhids.foldl (fun d s => dictInsert d (swh_str s) false) ([] : KnownDict)
      = swhids.map (fun s => (swh_str s, false)) := by
    rw [← List.foldl_map swh_str (fun d k => dictInsert d k false) swhids ([] : KnownDict),
      foldl_insert_fresh false (swhids.map swh_str) [] hnd
        (by intro k _ hmem; simp [dictKeys] at hmem)]
    simp [List.map_map, Function.comp]
  rw [h0]
  exact known_loop_map _ swhids hnd

theorem known_result_keys (env : KnownEnv) (swhids : List CoreSwhid) :
    dictKeys (known_loop
        (fun t => lookup_missing_hashes env.present t (group_swhids swhids t)) swhids
        (swhids.foldl (fun d s => dictInsert d (swh_str s) false) [])) =
      dedupFrom [] (swhids.map swh_str) := by
  have hkeys0 : dictKeys (swhids.foldl (fun d s => dictInsert d (swh_str s) false)
      ([] : KnownDict)) = dedupFrom [] (swhids.map swh_str) := by
    rw [← List.foldl_map swh_str (fun d k => dictInsert d k false) swhids ([] : KnownDict),
      dictKeys_foldl_insert false (swhids.map swh_str) ([] : KnownDict)]
    rfl
  have hmem : ∀ s ∈ swhids, swh_str s ∈ dictKeys
      (swhids.foldl (fun d s => dictInsert d (swh_str s) false) ([] : KnownDict)) := by
    intro s hs
    rw [hkeys0]
    rcases mem_dedupFrom_of_mem (swhids.map swh_str) []
      (List.mem_map_of_mem swh_str hs) with h1 | h1
    · cases h1
    · exact h1
  rw [dictKeys_known_loop _ swhids _ hmem, hkeys0]

/-! ### Claims about the known endpoint -/

def knownEnvW : KnownEnv :=
  { parse_core_swhid := fun s => .ok { object_type := .content, object_id := s }
    present := fun _ h => h == "aa11" }

/-- C3 counterexample: a request of N = 2 valid identifiers, both naming
the same present object (M = 2), yields a response with a single
`known: true` entry — not two — because the response dictionary is keyed by
the canonical identifier string and collapses duplicates, so the claimed
exact M / N − M counts fail on inputs with repeated identifiers. -/
theorem known_counts_counterexample :
    parse_all knownEnvW.parse_core_swhid ["aa11", "aa11"] =
        .ok [{ object_type := .content, object_id := "aa11" },
             { object_type := .content, object_id := "aa11" }]
      ∧ knownEnvW.present ObjectType.content "aa11" = true
      ∧ api_swhid_known knownEnvW ["aa11", "aa11"] = .ok [("swh:1:cnt:aa11", true)]
      ∧ (["aa11", "aa11"] : List String).length = 2 :=
  ⟨rfl, rfl, rfl, rfl⟩

/-- C3 (amended): for a request within the 1000 cap whose identifiers all
parse and whose canonical string forms are pairwise distinct, the `/known`
response has exactly M entries `known: true` — M the number of identifiers
whose object the store holds — and N − M entries `known: false`; and a
request of exactly 1001 elements is rejected with `LargePayloadExc`
whatever its contents (parseable or not), i.e. before any identifier is
parsed or evaluated.  Distinctness is forced by the counterexample: the
response dictionary collapses duplicate keys. -/
theorem known_counts_and_cap (env : KnownEnv) (data : List String) :
    (∀ swhids : List CoreSwhid, data.length ≤ 1000 →
      parse_all env.parse_core_swhid data = .ok swhids →
      (swhids.map swh_str).Nodup →
      ∃ r, api_swhid_known env data = .ok r
        ∧ (r.filter (fun p => p.2)).length =
            (swhids.filter (fun s => env.present s.object_type s.object_id)).length
        ∧ (r.filter (fun p => !p.2)).length =
            data.length -
              (swhids.filter (fun s => env.present s.object_type s.object_id)).length)
    ∧ (data.length = 1001 → api_swhid_known env data = .error .largePayload) := by
  constructor
  · intro swhids hlen hp hnd
    have hlen' : ¬ data.length > 1000 := by omega
    refine ⟨_, api_swhid_known_ok env data swhids hlen' hp, ?_, ?_⟩
    · rw [known_result_map env swhids hnd, List.filter_map, List.length_map]
      apply congrArg List.length
      apply filter_congr_mem
      intro s hs
      simp only [Function.comp]
      exact missing_iff_not_present env swhids s hs
    · rw [known_result_map env swhids hnd, List.filter_map, List.length_map]
      have hsplit := length_filter_not
        (fun s : CoreSwhid => env.present s.object_type s.object_id) swhids
      have hdata : swhids.length = data.length :=
        parse_all_length env.parse_core_swhid data swhids hp
      have hcongr : swhids.filter
            ((fun p : String × Bool => !p.2) ∘ (fun s =>
              (swh_str s, if s.object_id ∈ lookup_missing_hashes env.present s.object_type
                (group_swhids swhids s.object_type) then false else true))) =
          swhids.filter (fun s => !(env.present s.object_type s.object_id)) := by
        apply filter_congr_mem
        intro s hs
        simp only [Function.comp]
        rw [missing_iff_not_present env swhids s hs]
      rw [hcongr]
      omega
  · intro h1001
    unfold api_swhid_known
    rw [if_pos (by omega)]

/-- Witness for the amended C3: two distinct identifiers with one present
object give counts 1 and 1, and a 1001-element request of the same string
is rejected with `LargePayloadExc`. -/
theorem known_counts_and_cap_witness :
    api_swhid_known knownEnvW ["aa11", "bb22"] =
        .ok [("swh:1:cnt:aa11", true), ("swh:1:cnt:bb22", false)]
      ∧ (([("swh:1:cnt:aa11", true), ("swh:1:cnt:bb22", false)] : KnownDict).filter
          (fun p => p.2)).length = 1
      ∧ (([("swh:1:cnt:aa11", true), ("swh:1:cnt:bb22", false)] : KnownDict).filter
          (fun p => !p.2)).length = 1
      ∧ api_swhid_known knownEnvW (List.replicate 1001 "aa11") = .error .largePayload := by
  rcases (known_counts_and_cap knownEnvW ["aa11", "bb22"]).1
      [{ object_type := .content, object_id := "aa11" },
       { object_type := .content, object_id := "bb22" }]
      (by decide) rfl (by decide) with ⟨r, hr, h1, h2⟩
  have hcomp : api_swhid_known knownEnvW ["aa11", "bb22"] =
      .ok [("swh:1:cnt:aa11", true), ("swh:1:cnt:bb22", false)] := rfl
  rw [hcomp] at hr
  injection hr with hre
  subst hre
  refine ⟨hcomp, ?_, ?_, ?_⟩
  · rw [h1]; decide
  · rw [h2]; decide
  · exact (known_counts_and_cap knownEnvW (List.replicate 1001 "aa11")).2
      (by rw [List.length_replicate])

/-- C8: batch parsing short-circuits — when the request is within the size
cap and any element fails to parse, the whole `/known` request fails with
`BadInputExc` (HTTP 400); the error result carries no per-identifier
entries for the valid elements. -/
theorem known_parse_shortcircuit (env : KnownEnv) (data : List String) (s : String)
    (hlen : data.length ≤ 1000)
    (hs : s ∈ data)
    (hbad : env.parse_core_swhid s = .error ()) :
    api_swhid_known env data = .error .badInput := by
  unfold api_swhid_known
  rw [if_neg (by omega), parse_all_error env.parse_core_swhid data s hs hbad]

def badKnownEnv : KnownEnv :=
  { parse_core_swhid := fun _ => .error ()
    present := fun _ _ => true }

/-- Witness for C8: a one-element request whose identifier fails to parse
is rejected with `BadInputExc`. -/
theorem known_parse_shortcircuit_witness :
    api_swhid_known badKnownEnv ["not-a-swhid"] = .error .badInput :=
  known_parse_shortcircuit badKnownEnv ["not-a-swhid"] "not-a-swhid"
    (by decide) (List.mem_singleton.mpr rfl) rfl

/-- C9: the `/known` response is keyed by the canonical string of each
parsed identifier in first-occurrence order with duplicates collapsed — the
key list is the deduplication of the identifiers' canonical forms, contains
no repetition, and the response can therefore be shorter than the input. -/
theorem known_response_keys (env : KnownEnv) (data : List String)
    (swhids : List CoreSwhid) (r : KnownDict)
    (hp : parse_all env.parse_core_swhid data = .ok swhids)
    (hr : api_swhid_known env data = .ok r) :
    dictKeys r = dedupFrom [] (swhids.map swh_str)
      ∧ (dictKeys r).Nodup
      ∧ r.length ≤ data.length := by
  by_cases hlen : data.length > 1000
  · unfold api_swhid_known at hr
    rw [if_pos hlen] at hr
    exact Except.noConfusion hr
  · rw [api_swhid_known_ok env data swhids hlen hp] at hr
    injection hr with h
    subst h
    have hkeys := known_result_keys env swhids
    refine ⟨hkeys, hkeys ▸ nodup_dedupFrom _ _, ?_⟩
    have h1 : (dictKeys (known_loop
        (fun t => lookup_missing_hashes env.present t (group_swhids swhids t)) swhids
        (swhids.foldl (fun d s => dictInsert d (swh_str s) false) []))).length ≤
          data.length := by
      rw [hkeys]
      calc (dedupFrom [] (swhids.map swh_str)).length
          ≤ (swhids.map swh_str).length := length_dedupFrom _ _
        _ = swhids.length := List.length_map _ _
        _ = data.length := parse_all_length env.parse_core_swhid data swhids hp
    calc (known_loop
        (fun t => lookup_missing_hashes env.present t (group_swhids swhids t)) swhids
        (swhids.foldl (fun d s => dictInsert d (swh_str s) false) [])).length
        = (dictKeys (known_loop
            (fun t => lookup_missing_hashes env.present t (group_swhids swhids t)) swhids
            (swhids.foldl (fun d s => dictInsert d (swh_str s) false) []))).length :=
          (List.length_map _ _).symm
      _ ≤ data.length := h1

/-- Witness for C9: a three-element request with a repeated identifier
collapses to a two-entry response, keyed by the deduplicated canonical
forms. -/
theorem known_response_keys_witness :
    dictKeys [("swh:1:cnt:aa11", true), ("swh:1:cnt:bb22", false)] =
        dedupFrom []
          (([{ object_type := .content, object_id := "aa11" },
             { object_type := .content, object_id := "bb22" },
             { object_type := .content, object_id := "aa11" }] :
            List CoreSwhid).map swh_str)
      ∧ (dictKeys [("swh:1:cnt:aa11", true), ("swh:1:cnt:bb22", false)]).Nodup
      ∧ ([("swh:1:cnt:aa11", true), ("swh:1:cnt:bb22", false)] : KnownDict).length ≤
          (["aa11", "bb22", "aa11"] : List String).length :=
  known_response_keys knownEnvW ["aa11", "bb22", "aa11"]
    [{ object_type := .content, object_id := "aa11" },
     { object_type := .content, object_id := "bb22" },
     { object_type := .content, object_id := "aa11" }]
    [("swh:1:cnt:aa11", true), ("swh:1:cnt:bb22", false)] rfl rfl

end SwhWeb
